import Mathlib

/-!
Verification development for the secure code-execution pipeline of the
`secure-coding` repository (a browser code editor with a deny-list validator,
sliding-window rate limiter, worker-isolated execution and HTML-escaping of
all displayed output).

The JavaScript sources are shallowly embedded:
* `src/packages/react-app/src/security.js` — deny-list patterns,
  `validateCode`, `sanitizeCode`, `escapeHtml`, `sanitizeOutput`,
  `executeSecureCode` (settle-once guard, timeout resolution);
* `src/rateLimiter.js` — `RateLimiter` (sliding-window admission);
* `src/codeWorker.js` — worker-side blocked-pattern scan (stateful `/g`
  regexes), sandboxed evaluation, console capture, response messages;
* `src/App.jsx` — `runCode` orchestration (rate gate, validation, dispatch).

JavaScript regular expressions are embedded by a small matcher over
`List Char` that supports exactly the constructs the repository's patterns
use: word boundaries `\b`, case-insensitive literals, the classes
`\s`, `["'`]`, `[0-9a-f]`, and greedy `\s*` / `\s+` repetition.  The `/g`
flag's `lastIndex` statefulness is modelled explicitly (`regexTestG`);
`validateCode` resets it before every test (`regexTestFresh`), the worker
does not.
-/

/-- JS `\w` word character (ASCII letters, digits, underscore). -/
def isWordChar (c : Char) : Bool := c.isAlpha || c.isDigit || c = '_'

/-- JS `\s` whitespace (ASCII subset). -/
def isSpaceChar (c : Char) : Bool :=
  c = ' ' || c = '\t' || c = '\n' || c = '\r' || c = '\x0b' || c = '\x0c'

/-- The character class `["'`]` used by the string-argument timer patterns. -/
def isQuoteChar (c : Char) : Bool :=
  c = '"' || c = Char.ofNat 39 || c = Char.ofNat 96

/-- The class `["']` used by the iframe-creation pattern. -/
def isDoubleOrSingleQuote (c : Char) : Bool :=
  c = '"' || c = Char.ofNat 39

/-- The class `[0-9a-f]` under the `/i` flag. -/
def isHexChar (c : Char) : Bool :=
  c.isDigit || ('a' ≤ c && c ≤ 'f') || ('A' ≤ c && c ≤ 'F')

/-- One syntactic item of an embedded regular expression.  The repository's
patterns are all sequences of these items. -/
inductive RItem where
  | wb : RItem
  | lit (ci : Bool) (s : String) : RItem
  | one (p : Char → Bool) : RItem
  | many (p : Char → Bool) : RItem
  | many1 (p : Char → Bool) : RItem

/-- Case-insensitive (`/i`) or exact character comparison. -/
def charMatches (ci : Bool) (a b : Char) : Bool :=
  if ci then a.toLower = b.toLower else a = b

/-- JS `\b`: true iff exactly one side of the current position is a word
character (string edges count as non-word). -/
def wordBoundary (prev : Option Char) (cs : List Char) : Bool :=
  let a := match prev with | none => false | some c => isWordChar c
  let b := match cs with | [] => false | c :: _ => isWordChar c
  a != b

/-- Consume a literal (first argument) from the input, tracking the last
consumed character; `none` if the input does not start with the literal. -/
def consumeLit (ci : Bool) : List Char → Option Char → List Char →
    Option (Option Char × List Char)
  | [], prev, cs => some (prev, cs)
  | _ :: _, _, [] => none
  | l :: ls, _, c :: cs => if charMatches ci l c then consumeLit ci ls (some c) cs else none

/-- Anchored match of an item sequence against the input; returns the number
of characters consumed by the (greedy, leftmost) match.  `fuel` bounds the
recursion; `itemsFuel` below always suffices. -/
def matchEnd : Nat → List RItem → Option Char → List Char → Option Nat
  | 0, _, _, _ => none
  | _ + 1, [], _, _ => some 0
  | fuel + 1, .wb :: rest, prev, cs =>
    if wordBoundary prev cs then matchEnd fuel rest prev cs else none
  | fuel + 1, .lit ci s :: rest, prev, cs =>
    match consumeLit ci s.data prev cs with
    | none => none
    | some (prev2, cs2) => (matchEnd fuel rest prev2 cs2).map (· + s.length)
  | fuel + 1, .one p :: rest, _, cs =>
    match cs with
    | [] => none
    | c :: cs2 => if p c then (matchEnd fuel rest (some c) cs2).map (· + 1) else none
  | fuel + 1, .many p :: rest, prev, cs =>
    let greedy :=
      match cs with
      | [] => none
      | c :: cs2 =>
        if p c then (matchEnd fuel (.many p :: rest) (some c) cs2).map (· + 1) else none
    match greedy with
    | some e => some e
    | none => matchEnd fuel rest prev cs
  | fuel + 1, .many1 p :: rest, _, cs =>
    match cs with
    | [] => none
    | c :: cs2 => if p c then (matchEnd fuel (.many p :: rest) (some c) cs2).map (· + 1) else none

/-- Sufficient fuel: every `matchEnd` step removes an item or a character. -/
def itemsFuel (items : List RItem) (cs : List Char) : Nat :=
  items.length + cs.length + 1

/-- Anchored match with sufficient fuel. -/
def matchEndAt (items : List RItem) (prev : Option Char) (cs : List Char) : Option Nat :=
  matchEnd (itemsFuel items cs) items prev cs

/-- Unanchored leftmost search starting at absolute position `pos`,
returning the absolute end position of the first match. -/
def searchFrom (items : List RItem) : Option Char → List Char → Nat → Option Nat
  | prev, cs, pos =>
    match matchEndAt items prev cs with
    | some k => some (pos + k)
    | none =>
      match cs with
      | [] => none
      | c :: cs2 => searchFrom items (some c) cs2 (pos + 1)

/-- Drop `n` characters, remembering the last dropped character (needed for a
word-boundary check at the resume position of a `/g` regex). -/
def dropWithPrev : Nat → Option Char → List Char → Option Char × List Char
  | 0, prev, cs => (prev, cs)
  | _ + 1, prev, [] => (prev, [])
  | n + 1, _, c :: cs => dropWithPrev n (some c) cs

/-- An embedded JS regular expression: display source plus item sequence. -/
structure JSRegex where
  src : String
  items : List RItem

/-- Model of `regex.test(code)` after `regex.lastIndex = 0` (as `validateCode` does),
or for a regex without the `/g` flag: search the whole input. -/
def regexTestFresh (re : JSRegex) (code : List Char) : Bool :=
  (searchFrom re.items none code 0).isSome

/-- Model of `regex.test(code)` for a `/g` regex with persistent `lastIndex`: the
search starts at `lastIndex`; on success `lastIndex` becomes the match end,
on failure it is reset to `0`. -/
def regexTestG (re : JSRegex) (lastIndex : Nat) (code : List Char) : Bool × Nat :=
  let (prev, cs) := dropWithPrev lastIndex none code
  match searchFrom re.items prev cs lastIndex with
  | some e => (true, e)
  | none => (false, 0)

/-- Pattern `/\bname\s*\(/gi`. -/
def reWordCall (name : String) : JSRegex :=
  ⟨"/\\b" ++ name ++ "\\s*\\(/gi", [.wb, .lit true name, .many isSpaceChar, .lit true "("]⟩

/-- Pattern `/\bname\b/gi`. -/
def reWord (name : String) : JSRegex :=
  ⟨"/\\b" ++ name ++ "\\b/gi", [.wb, .lit true name, .wb]⟩

/-- Pattern `/\bname\s*=/gi`. -/
def reWordAssign (name : String) : JSRegex :=
  ⟨"/\\b" ++ name ++ "\\s*=/gi", [.wb, .lit true name, .many isSpaceChar, .lit true "="]⟩

/-- Pattern `/\bname\s*\./gi`. -/
def reWordDot (name : String) : JSRegex :=
  ⟨"/\\b" ++ name ++ "\\s*\\./gi", [.wb, .lit true name, .many isSpaceChar, .lit true "."]⟩

/-- Pattern `/\bname\s*\(\s*["'`]/gi` (string-argument timer scheduling). -/
def reWordCallQuote (name : String) : JSRegex :=
  ⟨"/\\b" ++ name ++ "\\s*\\(\\s*[quote]/gi",
   [.wb, .lit true name, .many isSpaceChar, .lit true "(", .many isSpaceChar, .one isQuoteChar]⟩

/-- From `security.js` lines 7-136: the full `DANGEROUS_PATTERNS` deny list, in
declaration order.  Each entry is the direct embedding of one regex literal. -/
def DANGEROUS_PATTERNS : List JSRegex := [
  -- Direct eval and function constructor
  reWordCall "eval",
  reWordCall "Function",
  ⟨"/\\bnew\\s+Function\\s*\\(/gi",
   [.wb, .lit true "new", .many1 isSpaceChar, .lit true "Function", .many isSpaceChar, .lit true "("]⟩,
  -- Dangerous global access
  reWord "window",
  reWord "document",
  reWord "globalThis",
  reWord "global",
  reWord "self",
  reWord "top",
  reWord "parent",
  reWord "frames",
  -- Network requests
  reWordCall "fetch",
  reWord "XMLHttpRequest",
  reWord "WebSocket",
  reWord "EventSource",
  -- File system access (if available)
  reWordCall "require",
  ⟨"/\\bimport\\s+/gi", [.wb, .lit true "import", .many1 isSpaceChar]⟩,
  reWordCall "import",
  ⟨"/\\bexport\\s+/gi", [.wb, .lit true "export", .many1 isSpaceChar]⟩,
  -- Storage access
  reWord "localStorage",
  reWord "sessionStorage",
  reWord "indexedDB",
  reWord "cookie",
  reWord "document.cookie",
  -- Dangerous timers with string arguments
  reWordCallQuote "setTimeout",
  reWordCallQuote "setInterval",
  reWordCallQuote "setImmediate",
  -- Prototype manipulation
  ⟨"/\\.__proto__\\s*=/gi", [.lit true ".__proto__", .many isSpaceChar, .lit true "="]⟩,
  ⟨"/\\.constructor\\s*=/gi", [.lit true ".constructor", .many isSpaceChar, .lit true "="]⟩,
  reWord "Object.prototype",
  reWord "Array.prototype",
  reWord "String.prototype",
  -- Dangerous reflection
  reWordDot "Reflect",
  reWordCall "Proxy",
  -- Process and system access
  reWord "process",
  reWord "child_process",
  reWord "os",
  -- Crypto mining (common attack vector)
  reWord "WebAssembly",
  reWord "SharedArrayBuffer",
  -- XSS vectors
  reWordAssign "innerHTML",
  reWordAssign "outerHTML",
  reWordCall "insertAdjacentHTML",
  reWordCall "document.write",
  reWordCall "document.writeln",
  -- Event manipulation
  reWordCall "addEventListener",
  reWordCall "attachEvent",
  -- Navigation
  reWordAssign "location",
  reWord "window.location",
  reWordDot "history",
  -- Clipboard access
  reWord "clipboard",
  reWord "navigator.clipboard",
  -- Geolocation
  reWord "navigator.geolocation",
  -- Camera/Microphone
  reWordCall "getUserMedia",
  reWord "MediaDevices",
  -- Service Workers
  reWord "serviceWorker",
  reWord "navigator.serviceWorker",
  -- WebRTC
  reWord "RTCPeerConnection",
  -- Dangerous operators
  reWordCall "with",
  reWord "debugger",
  -- Data exfiltration
  reWordCall "postMessage",
  reWord "MessageChannel",
  reWord "BroadcastChannel",
  -- DOM manipulation
  reWordCall "createElement",
  reWordCall "appendChild",
  reWordCall "removeChild",
  reWordCall "createTextNode",
  -- Style manipulation (potential XSS)
  reWordAssign "style",
  reWordCall "setAttribute",
  -- Script injection
  reWord "createScript",
  reWordAssign "script",
  -- Iframe manipulation
  ⟨"/\\bcreateElement\\s*\\(\\s*[quote]iframe/gi",
   [.wb, .lit true "createElement", .many isSpaceChar, .lit true "(", .many isSpaceChar,
    .one isDoubleOrSingleQuote, .lit true "iframe"]⟩,
  reWord "iframe",
  -- Base64 encoding (often used for obfuscation)
  reWordCall "atob",
  reWordCall "btoa",
  -- Unicode escapes (obfuscation)
  ⟨"/\\\\u[0-9a-f]\x7b4\x7d/gi",
   [.lit true "\\u", .one isHexChar, .one isHexChar, .one isHexChar, .one isHexChar]⟩,
  ⟨"/\\\\x[0-9a-f]\x7b2\x7d/gi", [.lit true "\\x", .one isHexChar, .one isHexChar]⟩
]

/-- From `security.js` lines 139-179: the `DANGEROUS_FUNCTIONS` name list. -/
def DANGEROUS_FUNCTIONS : List String := [
  "eval", "Function", "setTimeout", "setInterval", "setImmediate",
  "clearTimeout", "clearInterval", "clearImmediate", "fetch",
  "XMLHttpRequest", "WebSocket", "EventSource", "require", "import",
  "export", "localStorage", "sessionStorage", "indexedDB", "document",
  "window", "globalThis", "global", "self", "top", "parent", "frames",
  "process", "Reflect", "Proxy", "WebAssembly", "SharedArrayBuffer",
  "postMessage", "MessageChannel", "BroadcastChannel", "navigator",
  "location", "history", "atob", "btoa"
]

/-- Model of `new RegExp("\\b" + func + "\\s*\\(", "gi")` built fresh on every
`validateCode` call (so it carries no `lastIndex` state across calls). -/
def dangerousFunctionRegex (f : String) : JSRegex :=
  ⟨"/\\b" ++ f ++ "\\s*\\(/gi", [.wb, .lit true f, .many isSpaceChar, .lit true "("]⟩

/-- The four alternatives of the prototype-pollution check
`/\.__proto__|\.constructor\[|Object\.prototype|Array\.prototype/`
(case sensitive, no flags); the regex matches iff one alternative occurs. -/
def prototypePollutionAlternatives : List JSRegex :=
  [⟨"\\.__proto__", [.lit false ".__proto__"]⟩,
   ⟨"\\.constructor\\[", [.lit false ".constructor["]⟩,
   ⟨"Object\\.prototype", [.lit false "Object.prototype"]⟩,
   ⟨"Array\\.prototype", [.lit false "Array.prototype"]⟩]

/-- The three alternatives of the infinite-loop warning check
`/while\s*\(\s*true\s*\)|for\s*\(\s*;\s*;\s*\)|for\s*\(\s*;\s*true\s*;/`. -/
def infiniteLoopAlternatives : List JSRegex :=
  [⟨"while(true)",
    [.lit false "while", .many isSpaceChar, .lit false "(", .many isSpaceChar,
     .lit false "true", .many isSpaceChar, .lit false ")"]⟩,
   ⟨"for(;;)",
    [.lit false "for", .many isSpaceChar, .lit false "(", .many isSpaceChar, .lit false ";",
     .many isSpaceChar, .lit false ";", .many isSpaceChar, .lit false ")"]⟩,
   ⟨"for(;true;",
    [.lit false "for", .many isSpaceChar, .lit false "(", .many isSpaceChar, .lit false ";",
     .many isSpaceChar, .lit false "true", .many isSpaceChar, .lit false ";"]⟩]

/-- Model of `(code.match(/\{/g) || []).length` — number of opening braces. -/
def countOpenBraces (cs : List Char) : Nat := cs.countP (fun c => c = Char.ofNat 123)

/-- The `ValidationResult` record `{valid, errors, warnings}`. -/
structure ValidationResult where
  valid : Bool
  errors : List String
  warnings : List String
deriving DecidableEq

/-- Embedding of `sanitizeCode` (`security.js` lines 185-192): strips null bytes only. -/
def sanitizeCode (code : String) : String :=
  String.mk (code.data.filter (fun c => c ≠ Char.ofNat 0))

/-- The errors appended by the `DANGEROUS_PATTERNS.forEach` pass
(`security.js` lines 206-211), one per matching pattern, in list order. -/
def patternErrors (cs : List Char) : List String :=
  (DANGEROUS_PATTERNS.filter (fun re => regexTestFresh re cs)).map
    (fun re => "Dangerous pattern detected: " ++ re.src)

/-- The errors appended by the `DANGEROUS_FUNCTIONS.forEach` pass
(`security.js` lines 214-219). -/
def functionErrors (cs : List Char) : List String :=
  (DANGEROUS_FUNCTIONS.filter (fun f => regexTestFresh (dangerousFunctionRegex f) cs)).map
    (fun f => "Dangerous function call detected: " ++ f ++ "()")

/-- The error appended by the prototype-pollution check (`security.js`
lines 222-224). -/
def protoErrors (cs : List Char) : List String :=
  if prototypePollutionAlternatives.any (fun re => regexTestFresh re cs) then
    ["Prototype pollution attempt detected"]
  else []

/-- All errors of one `validateCode` pass over a non-empty string, in the
order the three passes push them. -/
def validateErrors (cs : List Char) : List String :=
  patternErrors cs ++ functionErrors cs ++ protoErrors cs

/-- The warnings of one `validateCode` pass (`security.js` lines 227-240):
length, brace-nesting depth, infinite-loop shapes — never blocking. -/
def validateWarnings (code : String) : List String :=
  (if 10000 < code.length then ["Code is very long and may cause performance issues"] else []) ++
  (if 50 < countOpenBraces code.data then
    ["Code has very deep nesting which may cause stack overflow"] else []) ++
  (if infiniteLoopAlternatives.any (fun re => regexTestFresh re code.data) then
    ["Potential infinite loop detected"] else [])

/-- Embedding of `validateCode` (`security.js` lines 197-247).  The JS guard
`!code || typeof code !== 'string'` rejects exactly the empty string once the
input is known to be a string.  Each `DANGEROUS_PATTERNS` test is preceded by
`pattern.lastIndex = 0`, which is what `regexTestFresh` models; the
per-function regexes are constructed fresh, and the prototype-pollution and
loop regexes have no `/g` flag, so all tests here are stateless.  The result
sets `valid := errors.length === 0`. -/
def validateCode (code : String) : ValidationResult :=
  if code = "" then
    { valid := false, errors := ["Code must be a non-empty string"], warnings := [] }
  else
    { valid := (validateErrors code.data).isEmpty,
      errors := validateErrors code.data,
      warnings := validateWarnings code }

/-- A text contains a deny-listed signature iff some pass of `validateCode`'s
deny list (pattern list, function-call list, prototype-pollution check)
matches it. -/
def containsDenyListedSignature (code : String) : Bool :=
  DANGEROUS_PATTERNS.any (fun re => regexTestFresh re code.data) ||
  DANGEROUS_FUNCTIONS.any (fun f => regexTestFresh (dangerousFunctionRegex f) code.data) ||
  prototypePollutionAlternatives.any (fun re => regexTestFresh re code.data)

example : (validateCode "eval(1)").valid = false := by decide
example : (validateCode "const x = 1").valid = true := by decide
example : (validateCode "").valid = false := by decide
example : containsDenyListedSignature "const x = 1" = false := by decide
example : (validateCode "let n = 0; while (true) \x7b n = n + 1 \x7d").warnings =
    ["Potential infinite loop detected"] := by decide

example : regexTestFresh (reWordCall "eval") "a; eval (x)".data = true := by decide

/-! ### HTML escaping (`escapeHtml`, `sanitizeOutput`, `security.js` 415-441) -/

/-- The replacement map of `escapeHtml`: the five markup-significant
characters each become their entity; every other character is kept. -/
def escapeChar (c : Char) : List Char :=
  if c = '&' then "&amp;".data
  else if c = '<' then "&lt;".data
  else if c = '>' then "&gt;".data
  else if c = '"' then "&quot;".data
  else if c = Char.ofNat 39 then "&#039;".data
  else [c]

/-- Model of `text.replace(/[&<>"']/g, m => map[m])` character by character. -/
def escapeData : List Char → List Char
  | [] => []
  | c :: rest => escapeChar c ++ escapeData rest

/-- Embedding of `escapeHtml` (`security.js` lines 415-424); its input is already a string
here, so the JS `String(text)` coercion is the identity. -/
def escapeHtml (s : String) : String := String.mk (escapeData s.data)

/-- A JSON-like value tree, modelling the objects that can reach
`JSON.stringify` in this codebase. -/
inductive JVal where
  | jstr (s : String)
  | jnum (n : Int)
  | jbool (b : Bool)
  | jnull
  | jarr (xs : List JVal)
  | jobjv (fields : List (String × JVal))

/-- Minimal escaping of a JSON string body (backslash and double quote). -/
def jsonEscapeChar (c : Char) : List Char :=
  if c = '"' then ['\\', '"']
  else if c = '\\' then ['\\', '\\']
  else [c]

-- Model of the host `JSON.stringify` (finite trees never throw, so the
-- `catch` branch of `sanitizeOutput` is unreachable in the model).
mutual
def jsonStringify : JVal → String
  | .jstr s => "\"" ++ String.mk (s.data.flatMap jsonEscapeChar) ++ "\""
  | .jnum n => toString n
  | .jbool b => if b then "true" else "false"
  | .jnull => "null"
  | .jarr xs => "[" ++ jsonStringifyList xs ++ "]"
  | .jobjv fs => "\x7b" ++ jsonStringifyFields fs ++ "\x7d"

def jsonStringifyList : List JVal → String
  | [] => ""
  | [x] => jsonStringify x
  | x :: xs => jsonStringify x ++ "," ++ jsonStringifyList xs

def jsonStringifyFields : List (String × JVal) → String
  | [] => ""
  | [(k, v)] => "\"" ++ k ++ "\":" ++ jsonStringify v
  | (k, v) :: fs => "\"" ++ k ++ "\":" ++ jsonStringify v ++ "," ++ jsonStringifyFields fs
end

/-- A JavaScript runtime value as it can be passed to `sanitizeOutput` or to
a console method: `typeof` distinguishes strings, objects (including `null`),
and the remaining primitives; a function value stringifies to its source
text. -/
inductive JSValue where
  | str (s : String)
  | num (n : Int)
  | bool (b : Bool)
  | jsNull
  | undef
  | obj (j : JVal)
  | func (src : String)

/-- The host `String(v)` conversion. -/
def jsToString : JSValue → String
  | .str s => s
  | .num n => toString n
  | .bool b => if b then "true" else "false"
  | .jsNull => "null"
  | .undef => "undefined"
  | .obj _ => "[object Object]"
  | .func src => src

/-- Embedding of `sanitizeOutput` (`security.js` lines 429-441): strings are escaped;
`typeof` `'object'` inputs (including `null`) are JSON-stringified then
escaped; every other value is returned as `String(output)` unescaped. -/
def sanitizeOutput (v : JSValue) : String :=
  match v with
  | .str s => escapeHtml s
  | .obj j => escapeHtml (jsonStringify j)
  | .jsNull => escapeHtml (jsonStringify .jnull)
  | v => jsToString v

/-- Whether `cs` begins with one of the five entities `escapeHtml` produces. -/
def isEntityStart (cs : List Char) : Bool :=
  "amp;".data.isPrefixOf cs || "lt;".data.isPrefixOf cs || "gt;".data.isPrefixOf cs ||
  "quot;".data.isPrefixOf cs || "#039;".data.isPrefixOf cs

/-- The claim's safety condition on emitted text: no `<`, `>`, `"`, `'` at
all, and every `&` begins one of the five entities. -/
def wellEscaped : List Char → Bool
  | [] => true
  | c :: rest =>
    if c = '<' || c = '>' || c = '"' || c = Char.ofNat 39 then false
    else if c = '&' then isEntityStart rest && wellEscaped rest
    else wellEscaped rest

/-- Predicate `wellEscaped` on a string. -/
def wellEscapedStr (s : String) : Bool := wellEscaped s.data

example : wellEscapedStr (escapeHtml "<script>alert('&')</script>") = true := by decide
example : wellEscapedStr "a && b" = false := by decide
example : sanitizeOutput (.str "1<2") = "1&lt;2" := by decide
example : sanitizeOutput (.num 42) = "42" := by decide
example : regexTestFresh (reWordCall "eval") "evaluate(x)".data = false := by decide
example : regexTestFresh (reWord "window") "mywindow".data = false := by decide
example : regexTestFresh (reWord "window") "a.window.b".data = true := by decide
example : regexTestFresh (reWord "window") "WINDOW".data = true := by decide
example : regexTestG (reWordCall "eval") 0 "eval(x)".data = (true, 5) := by decide
example : regexTestG (reWordCall "eval") 5 "eval(x)".data = (false, 0) := by decide

/-! ### Rate limiter (`src/rateLimiter.js`) -/

/-- The `RateLimiter` class state: `maxRequests`, `windowMs`, and the
per-identifier timestamp map (`Map.get(id) || []` makes an absent identifier
behave as the empty list, so the map is embedded as a total function). -/
structure RateLimiter where
  maxRequests : Nat
  windowMs : Nat
  requests : String → List Nat

/-- Embedding of `isAllowed(identifier)` with the current clock passed explicitly:
prune entries with `now - t >= windowMs`, deny (without writing anything
back) when the pruned count is at the cap, otherwise record `now`. -/
def RateLimiter.isAllowed (rl : RateLimiter) (now : Nat) (id : String) :
    Bool × RateLimiter :=
  let userRequests := rl.requests id
  let validRequests := userRequests.filter (fun t => now - t < rl.windowMs)
  if rl.maxRequests ≤ validRequests.length then
    (false, rl)
  else
    (true, { rl with requests := fun i => if i = id then validRequests ++ [now] else rl.requests i })

/-- Embedding of `getRemaining(identifier)`: the same pruning, non-destructively; the JS
`Math.max(0, ...)` is subsumed by truncated natural subtraction. -/
def RateLimiter.getRemaining (rl : RateLimiter) (now : Nat) (id : String) : Nat :=
  rl.maxRequests - ((rl.requests id).filter (fun t => now - t < rl.windowMs)).length

/-- Embedding of `reset(identifier)`. -/
def RateLimiter.reset (rl : RateLimiter) (id : String) : RateLimiter :=
  { rl with requests := fun i => if i = id then [] else rl.requests i }

/-- A sequence of `isAllowed` calls for one identifier at the given times. -/
def RateLimiter.runCalls (rl : RateLimiter) (id : String) :
    List Nat → List Bool × RateLimiter
  | [] => ([], rl)
  | now :: rest =>
    let step := rl.isAllowed now id
    let tail := step.2.runCalls id rest
    (step.1 :: tail.1, tail.2)

example :
    (RateLimiter.runCalls ⟨2, 100, fun _ => []⟩ "u" [0, 10, 20, 110]).1 =
      [true, true, false, true] := by decide

/-! ### Worker (`src/codeWorker.js`) -/

/-- From `codeWorker.js` lines 27-39: the worker's reduced `BLOCKED_PATTERNS`
deny list.  These are module-level `/gi` regexes, so their `lastIndex`
survives from one message to the next. -/
def BLOCKED_PATTERNS : List JSRegex := [
  reWordCall "eval",
  reWordCall "Function",
  reWord "window",
  reWord "document",
  reWordCall "fetch",
  reWord "XMLHttpRequest",
  reWordCall "require",
  ⟨"/\\bimport\\s+/gi", [.wb, .lit true "import", .many1 isSpaceChar]⟩,
  reWordCall "postMessage",
  reWordCall "close",
  reWordCall "importScripts"
]

/-- The worker's validation loop (`codeWorker.js` lines 45-53): test each
pattern in order with its persisted `lastIndex`; the loop returns on the
first match (leaving the later patterns' state untouched), and a failed
`test` resets that pattern's `lastIndex` to `0`. -/
def scanBlockedPatterns : List (JSRegex × Nat) → List Char → Bool × List (JSRegex × Nat)
  | [], _ => (false, [])
  | (re, li) :: rest, code =>
    let t := regexTestG re li code
    if t.1 then
      (true, (re, t.2) :: rest)
    else
      let tail := scanBlockedPatterns rest code
      (tail.1, (re, t.2) :: tail.2)

/-- The worker's pattern state when the worker is first created. -/
def initialBlockedStates : List (JSRegex × Nat) :=
  BLOCKED_PATTERNS.map (fun re => (re, 0))

/-- One guest call to a captured console method during evaluation. -/
inductive ConsoleCall where
  | logCall (args : List JSValue)
  | errorCall (args : List JSValue)
  | warnCall (args : List JSValue)

/-- The console state during one worker evaluation: the two accumulators
(`logs`, `errors`), the calls forwarded to the *original* console functions,
and whether the console methods are currently replaced by the wrappers. -/
structure WorkerConsoleState where
  logs : List String
  errors : List String
  realLog : List (List JSValue)
  realError : List (List JSValue)
  realWarn : List (List JSValue)
  redirected : Bool

/-- Console state before any redirection. -/
def initialConsoleState : WorkerConsoleState := ⟨[], [], [], [], [], false⟩

/-- The `console.log` wrapper's argument formatting (`codeWorker.js` lines
71-83): objects (and `null`, whose `typeof` is `'object'`) are
`JSON.stringify`ed, everything else goes through `String(arg)`. -/
def formatWorkerLogArg (v : JSValue) : String :=
  match v with
  | .obj j => jsonStringify j
  | .jsNull => jsonStringify .jnull
  | v => jsToString v

/-- One wrapper invocation (`codeWorker.js` lines 71-93): format and append
to the in-memory accumulator, then forward the raw arguments to the original
console function. -/
def workerConsoleStep (st : WorkerConsoleState) (c : ConsoleCall) : WorkerConsoleState :=
  match c with
  | .logCall args =>
    { st with
      logs := st.logs ++ [String.intercalate " " (args.map formatWorkerLogArg)],
      realLog := st.realLog ++ [args] }
  | .errorCall args =>
    { st with
      errors := st.errors ++ [String.intercalate " " (args.map jsToString)],
      realError := st.realError ++ [args] }
  | .warnCall args =>
    { st with
      errors := st.errors ++ ["WARN: " ++ String.intercalate " " (args.map jsToString)],
      realWarn := st.realWarn ++ [args] }

/-- Outcome of evaluating the guest text in the sandboxed runner: the
returned value (`none` models `undefined`) or a thrown error's message. -/
inductive GuestOutcome where
  | completed (value : Option JSValue)
  | threw (message : String)

/-- A worker response message.  `result := none` models an absent `result`
field; `error := none` models `error: null` or an absent `error` field. -/
structure WorkerResponse where
  result : Option String
  output : String
  error : Option String
deriving DecidableEq

/-- The blocked-pattern response (`codeWorker.js` lines 47-50): note the
message carries no `result` field at all. -/
def blockedResponse : WorkerResponse :=
  ⟨none, "", some "Dangerous code pattern detected"⟩

/-- The timeout response (`codeWorker.js` lines 56-61), likewise without a
`result` field. -/
def timeoutResponse : WorkerResponse :=
  ⟨none, "", some "Execution timeout exceeded"⟩

/-- The worker's `onmessage` handler for one request, parameterised by the
guest evaluation (its console calls in order, and its outcome): run the
stateful deny-list scan; if blocked, reply immediately (the console is never
redirected on this path).  Otherwise redirect the console wrappers, evaluate,
restore the console unconditionally (both the success path, lines 171-183,
and the catch path, lines 185-197, restore before posting), and post exactly
one response. -/
def workerOnMessage (states : List (JSRegex × Nat)) (code : String)
    (calls : List ConsoleCall) (guest : GuestOutcome) :
    WorkerResponse × List (JSRegex × Nat) × WorkerConsoleState :=
  let scan := scanBlockedPatterns states code.data
  if scan.1 then
    (blockedResponse, scan.2, initialConsoleState)
  else
    let redirected := { initialConsoleState with redirected := true }
    let after := calls.foldl workerConsoleStep redirected
    let restored := { after with redirected := false }
    match guest with
    | .completed value =>
      (⟨some (match value with | some v => jsToString v | none => ""),
        String.intercalate "\n" (restored.logs ++ restored.errors.map (fun e => "ERROR: " ++ e)),
        none⟩,
       scan.2, restored)
    | .threw msg =>
      (⟨some "",
        if restored.errors.isEmpty then ""
        else String.intercalate "\n" (restored.errors.map (fun e => "ERROR: " ++ e)),
        some msg⟩,
       scan.2, restored)

example :
    (workerOnMessage initialBlockedStates "console.log(2+2)"
      [.logCall [.num 4]] (.completed none)).1 =
    ⟨some "", "4", none⟩ := by decide

/-! ### Timeout resolution (`executeSecureCode`, `security.js` 337-409 and
`codeWorker.js` 56-61) -/

/-- Model of `const resolvedTimeout = Math.max(0, timeout)` where the parameter
defaults to `5000` when the call site omits it. -/
def resolvedTimeout (timeout : Option Int) : Int :=
  max 0 (timeout.getD 5000)

/-- The delay the worker passes to `setTimeout`: `timeout || 5000`, so a
missing — or zero, since `0` is falsy — timeout becomes `5000`, while any
other value (negative included) is passed through unchanged. -/
def workerTimeoutDelay (timeout : Option Int) : Int :=
  match timeout with
  | none => 5000
  | some t => if t = 0 then 5000 else t

/-- Modelled from host semantics: `setTimeout` clamps a negative delay to
zero when scheduling the timer. -/
def hostSetTimeoutDelay (d : Int) : Int := max 0 d

/-! ### Settle-once guard of `executeSecureCode` (`security.js` 345-409) -/

/-- The asynchronous events that can try to settle the promise returned by
`executeSecureCode`: the outer timer firing, a worker message, a worker
error, or a `postMessage` failure. -/
inductive ExecEvent where
  | timeoutFired
  | workerMessage (result : Option String) (output : String) (error : Option String)
  | workerErrored (msg : String)
  | postMessageFailed (msg : String)

/-- A terminal settlement of the promise: resolution with
`{result, output, warnings}` or rejection with an error message. -/
inductive Settlement where
  | resolvedOutcome (result : Option String) (output : String) (warnings : List String)
  | rejectedOutcome (msg : String)
deriving DecidableEq

/-- Which settlement each event produces when it is the first to fire
(`security.js` 362-408).  The `if (error)` test is JS truthiness, so an
empty error string resolves rather than rejects. -/
def settlementOf (warnings : List String) : ExecEvent → Settlement
  | .timeoutFired => .rejectedOutcome "Code execution timeout exceeded"
  | .workerMessage r o e =>
    if e.getD "" = "" then .resolvedOutcome r o warnings
    else .rejectedOutcome (e.getD "")
  | .workerErrored m => .rejectedOutcome ("Worker Error: " ++ m)
  | .postMessageFailed m => .rejectedOutcome ("Failed to start worker: " ++ m)

/-- The promise's settlement state: the `settled` guard flag, the list of
settlements actually performed, and how many times the owning submission's
"is executing" state has been transitioned to false (once per settlement,
`App.jsx` 51, 64, 140, 174). -/
structure ExecState where
  settled : Bool
  settlements : List Settlement
  executingTransitions : Nat
deriving DecidableEq

/-- State before any event. -/
def execInit : ExecState := ⟨false, [], 0⟩

/-- One event handler: every handler first checks `settled` and returns
without effect when it is already set; otherwise it sets the flag and
produces its settlement. -/
def execStep (warnings : List String) (st : ExecState) (e : ExecEvent) : ExecState :=
  if st.settled then st
  else
    { settled := true,
      settlements := st.settlements ++ [settlementOf warnings e],
      executingTransitions := st.executingTransitions + 1 }

/-- Deliver a sequence of events in order. -/
def execRun (warnings : List String) (st : ExecState) : List ExecEvent → ExecState
  | [] => st
  | e :: es => execRun warnings (execStep warnings st e) es

example :
    execRun [] execInit [.timeoutFired, .workerMessage (some "4") "4" none] =
      ⟨true, [.rejectedOutcome "Code execution timeout exceeded"], 1⟩ := by decide

/-! ### Orchestrator (`runCode`, `App.jsx` 88-179) -/

/-- Observable steps of one `runCode` invocation, in program order. -/
inductive RunEvent where
  | rateChecked (allowed : Bool)
  | validated (valid : Bool)
  | dispatchedToWorker (code : String) (timeoutMs : Nat)
  | fallbackExecuted (code : String)
deriving DecidableEq

/-- Did this step invoke the validator? -/
def RunEvent.isValidationEvent : RunEvent → Bool
  | .validated _ => true
  | _ => false

/-- Did this step attempt an execution (worker dispatch or fallback)? -/
def RunEvent.isExecutionEvent : RunEvent → Bool
  | .dispatchedToWorker _ _ => true
  | .fallbackExecuted _ => true
  | _ => false

/-- The terminal outcome of the synchronous part of `runCode`. -/
inductive RunOutcome where
  | ignoredBusy
  | rateLimited (remaining : Nat)
  | validationFailed (errors : List String)
  | dispatched
  | fallback
deriving DecidableEq

/-- Embedding of `runCode` (`App.jsx` 88-179), synchronous control flow: the re-entrancy
guard, then the rate gate (lines 98-105: on denial report the remaining
quota and stop), then validation (lines 107-115: on failure report the full
error list and stop), then sanitization and dispatch — `postMessage` to the
worker when one exists (lines 157-162), otherwise the fallback execution
path (line 171). -/
def runCode (busy : Bool) (rl : RateLimiter) (now : Nat) (id : String)
    (code : String) (workerAvailable : Bool) :
    RunOutcome × List RunEvent × RateLimiter :=
  if busy then (.ignoredBusy, [], rl)
  else
    let gate := rl.isAllowed now id
    if !gate.1 then
      (.rateLimited (gate.2.getRemaining now id), [.rateChecked false], gate.2)
    else
      let v := validateCode code
      if !v.valid then
        (.validationFailed v.errors, [.rateChecked true, .validated false], gate.2)
      else
        let sanitized := sanitizeCode code
        if workerAvailable then
          (.dispatched,
           [.rateChecked true, .validated true, .dispatchedToWorker sanitized 5000], gate.2)
        else
          (.fallback,
           [.rateChecked true, .validated true, .fallbackExecuted sanitized], gate.2)

example :
    (runCode false ⟨0, 60000, fun _ => []⟩ 0 "u" "1+1" true).1 =
      RunOutcome.rateLimited 0 := by decide
example :
    (runCode false ⟨10, 60000, fun _ => []⟩ 0 "u" "eval(1)" true).2.1 =
      [.rateChecked true, .validated false] := by decide

/-! ## Claims -/

/-- Claim C1.  For every text containing a deny-listed signature,
`validateCode` returns `valid = false` with at least one error; and for
every text, `valid` is `true` exactly when the errors list is empty. -/
theorem validateCode_deny_blocks (code : String) :
    ((validateCode code).valid = true ↔ (validateCode code).errors = [])
    ∧ (containsDenyListedSignature code = true →
       (validateCode code).valid = false ∧ (validateCode code).errors ≠ []) := by
  by_cases hc : code = ""
  · subst hc
    exact ⟨by simp [validateCode], fun _ => ⟨by simp [validateCode], by simp [validateCode]⟩⟩
  · have herr : (validateCode code).errors = validateErrors code.data := by
      simp [validateCode, hc]
    have hval : (validateCode code).valid = (validateErrors code.data).isEmpty := by
      simp [validateCode, hc]
    constructor
    · rw [hval, herr, List.isEmpty_iff]
    · intro h
      simp only [containsDenyListedSignature, Bool.or_eq_true] at h
      have hne : validateErrors code.data ≠ [] := by
        rcases h with (h | h) | h
        · obtain ⟨re, hre, hf⟩ := List.any_eq_true.mp h
          have hmem : ("Dangerous pattern detected: " ++ re.src) ∈ patternErrors code.data :=
            List.mem_map_of_mem _ (List.mem_filter.mpr ⟨hre, hf⟩)
          intro heq
          simp only [validateErrors, List.append_eq_nil] at heq
          rw [heq.1.1] at hmem
          exact absurd hmem (List.not_mem_nil _)
        · obtain ⟨f, hf, hm⟩ := List.any_eq_true.mp h
          have hmem : ("Dangerous function call detected: " ++ f ++ "()") ∈ functionErrors code.data :=
            List.mem_map_of_mem _ (List.mem_filter.mpr ⟨hf, hm⟩)
          intro heq
          simp only [validateErrors, List.append_eq_nil] at heq
          rw [heq.1.2] at hmem
          exact absurd hmem (List.not_mem_nil _)
        · intro heq
          simp only [validateErrors, List.append_eq_nil, protoErrors, h, if_pos] at heq
          exact absurd heq.2 (by simp)
      have hfalse : (validateErrors code.data).isEmpty = false := by
        rcases hE : validateErrors code.data with _ | ⟨x, xs⟩
        · exact absurd hE hne
        · rfl
      exact ⟨by rw [hval, hfalse], by rw [herr]; exact hne⟩

/-- Witness for C1 at the concrete input `"eval(1)"`. -/
theorem validateCode_deny_blocks_witness :
    containsDenyListedSignature "eval(1)" = true
    ∧ (validateCode "eval(1)").valid = false
    ∧ (validateCode "eval(1)").errors ≠ [] :=
  ⟨by decide,
   ((validateCode_deny_blocks "eval(1)").2 (by decide)).1,
   ((validateCode_deny_blocks "eval(1)").2 (by decide)).2⟩

/-- Claim C6, counterexample.  The empty string is under 10000 characters and
contains no deny-listed signature, yet `validateCode` declares it invalid
(the `!code` guard rejects the empty string as "Code must be a non-empty
string"). -/
theorem validateCode_empty_string_counterexample :
    "".length < 10000 ∧ containsDenyListedSignature "" = false
    ∧ (validateCode "").valid = false := by decide

/-- Claim C6, amended.  For every *non-empty* text under 10000 characters
that contains no deny-listed signature, `validateCode` returns
`valid = true` (warnings permitted). -/
theorem validateCode_clean_nonempty_valid (code : String)
    (hne : code ≠ "") (_hlen : code.length < 10000)
    (hclean : containsDenyListedSignature code = false) :
    (validateCode code).valid = true := by
  have hval : (validateCode code).valid = (validateErrors code.data).isEmpty := by
    simp [validateCode, hne]
  simp only [containsDenyListedSignature, Bool.or_eq_false_iff] at hclean
  obtain ⟨⟨h1, h2⟩, h3⟩ := hclean
  have hp : patternErrors code.data = [] := by
    unfold patternErrors
    rw [List.filter_eq_nil_iff.mpr, List.map_nil]
    intro re hre
    exact fun hm => by simp [List.any_eq_true] at h1; exact absurd hm (by simpa using h1 re hre)
  have hf : functionErrors code.data = [] := by
    unfold functionErrors
    rw [List.filter_eq_nil_iff.mpr, List.map_nil]
    intro f hfm
    exact fun hm => by simp [List.any_eq_true] at h2; exact absurd hm (by simpa using h2 f hfm)
  have hpr : protoErrors code.data = [] := by
    unfold protoErrors
    rw [if_neg]
    simp [h3]
  rw [hval]
  simp [validateErrors, hp, hf, hpr]

/-- Witness for C6 at the concrete input `"const x = 1"`. -/
theorem validateCode_clean_nonempty_valid_witness :
    ("const x = 1" ≠ "" ∧ "const x = 1".length < 10000
      ∧ containsDenyListedSignature "const x = 1" = false)
    ∧ (validateCode "const x = 1").valid = true :=
  ⟨⟨by decide, by decide, by decide⟩,
   validateCode_clean_nonempty_valid "const x = 1" (by decide) (by decide) (by decide)⟩

/-- Claim C9.  The worker's deny-list scan is *not* deterministic across
repeated identical request messages: the module-level `/gi` patterns keep
their `lastIndex` between messages (the worker never resets it, unlike
`validateCode`), so the first `{code: "eval(x)"}` message is blocked while
the second identical message passes the scan and is executed.  A scan from
fresh state blocks the text every time. -/
theorem workerScan_statefulness_divergence :
    (scanBlockedPatterns initialBlockedStates "eval(x)".data).1 = true
    ∧ (scanBlockedPatterns
        (scanBlockedPatterns initialBlockedStates "eval(x)".data).2 "eval(x)".data).1 = false
    ∧ BLOCKED_PATTERNS.any (fun re => regexTestFresh re "eval(x)".data) = true := by
  decide

/-- Every escaped character expansion preserves `wellEscaped` of the rest. -/
theorem wellEscaped_escapeChar_append (c : Char) (rest : List Char) :
    wellEscaped (escapeChar c ++ rest) = wellEscaped rest := by
  by_cases h1 : c = '&'
  · subst h1; simp [escapeChar, wellEscaped, isEntityStart, List.isPrefixOf]
  · by_cases h2 : c = '<'
    · subst h2; simp [escapeChar, wellEscaped, isEntityStart, List.isPrefixOf]
    · by_cases h3 : c = '>'
      · subst h3; simp [escapeChar, wellEscaped, isEntityStart, List.isPrefixOf]
      · by_cases h4 : c = '"'
        · subst h4; simp [escapeChar, wellEscaped, isEntityStart, List.isPrefixOf]
        · by_cases h5 : c = Char.ofNat 39
          · subst h5; simp [escapeChar, wellEscaped, isEntityStart, List.isPrefixOf]
          · simp [escapeChar, wellEscaped, h1, h2, h3, h4, h5]

/-- Lemma: the character-wise output of `escapeHtml` is always well-escaped. -/
theorem wellEscaped_escapeData (cs : List Char) :
    wellEscaped (escapeData cs) = true := by
  induction cs with
  | nil => rfl
  | cons c rest ih => rw [escapeData, wellEscaped_escapeChar_append]; exact ih

/-- Claim C3, counterexample.  `sanitizeOutput` on a function value returns the
function's source text through `String(output)` unescaped, so the output can
contain a bare `<`. -/
theorem sanitizeOutput_function_counterexample :
    wellEscapedStr (sanitizeOutput (.func "() => 1<2")) = false
    ∧ sanitizeOutput (.func "() => 1<2") = "() => 1<2" := by decide

/-- Claim C3, amended.  `escapeHtml` output is always well-escaped (the five
markup-significant characters are replaced by entities and every remaining
`&` begins such an entity); `sanitizeOutput` is well-escaped on every
string, object and null input, and on every other input it returns the
default `String(output)` conversion unchanged — so a function value's source
text passes through unescaped. -/
theorem sanitizeOutput_escapes (s : String) (v : JSValue) :
    wellEscapedStr (escapeHtml s) = true
    ∧ (wellEscapedStr (sanitizeOutput v) = true ∨ sanitizeOutput v = jsToString v) := by
  refine ⟨wellEscaped_escapeData s.data, ?_⟩
  cases v with
  | str s2 => exact Or.inl (wellEscaped_escapeData s2.data)
  | obj j => exact Or.inl (wellEscaped_escapeData (jsonStringify j).data)
  | jsNull => exact Or.inl (wellEscaped_escapeData (jsonStringify .jnull).data)
  | num n => exact Or.inr rfl
  | bool b => exact Or.inr rfl
  | undef => exact Or.inr rfl
  | func src => exact Or.inr rfl

/-- Lemma: `isAllowed` below the cap: admit and append the current time to the
pruned sequence. -/
theorem isAllowed_below_cap (rl : RateLimiter) (now : Nat) (id : String)
    (h : ((rl.requests id).filter (fun t => now - t < rl.windowMs)).length < rl.maxRequests) :
    rl.isAllowed now id =
      (true, { rl with requests := fun i =>
        if i = id then ((rl.requests id).filter (fun t => now - t < rl.windowMs)) ++ [now]
        else rl.requests i }) := by
  simp only [RateLimiter.isAllowed]
  rw [if_neg (Nat.not_le.mpr h)]

/-- Lemma: `isAllowed` at or above the cap: deny and leave the state untouched
(in particular, nothing is recorded). -/
theorem isAllowed_deny (rl : RateLimiter) (now : Nat) (id : String)
    (h : rl.maxRequests ≤ ((rl.requests id).filter (fun t => now - t < rl.windowMs)).length) :
    rl.isAllowed now id = (false, rl) := by
  simp only [RateLimiter.isAllowed]
  rw [if_pos h]

/-- A run of calls whose stored-plus-incoming timestamps all lie within the
window of a common bound `N` admits every call and stores exactly the call
times, in order. -/
theorem runCalls_all_granted (id : String) (N : Nat) :
    ∀ (times : List Nat) (rl : RateLimiter),
      (rl.requests id).length + times.length ≤ rl.maxRequests →
      (∀ t ∈ rl.requests id ++ times, t ≤ N ∧ N - t < rl.windowMs) →
      (rl.runCalls id times).1 = List.replicate times.length true
      ∧ ((rl.runCalls id times).2).requests id = rl.requests id ++ times
      ∧ ((rl.runCalls id times).2).maxRequests = rl.maxRequests
      ∧ ((rl.runCalls id times).2).windowMs = rl.windowMs := by
  intro times
  induction times with
  | nil =>
    intro rl _ _
    exact ⟨rfl, by simp [RateLimiter.runCalls], rfl, rfl⟩
  | cons now rest ih =>
    intro rl hlen hbound
    have hkeep : (rl.requests id).filter (fun t => now - t < rl.windowMs) = rl.requests id := by
      apply List.filter_eq_self.mpr
      intro t ht
      have hN := hbound t (List.mem_append_left _ ht)
      have hnow := hbound now (List.mem_append_right _ (List.mem_cons_self _ _))
      have hsub : now - t ≤ N - t := Nat.sub_le_sub_right hnow.1 t
      exact decide_eq_true (Nat.lt_of_le_of_lt hsub hN.2)
    have hlt : (rl.requests id).length < rl.maxRequests := by
      simp only [List.length_cons] at hlen
      omega
    have hstep := isAllowed_below_cap rl now id (by rw [hkeep]; exact hlt)
    rw [hkeep] at hstep
    have hreq2 :
        ({ rl with requests := fun i =>
            if i = id then rl.requests id ++ [now] else rl.requests i } :
          RateLimiter).requests id = rl.requests id ++ [now] := by
      simp
    obtain ⟨ih1, ih2, ih3, ih4⟩ :=
      ih ({ rl with requests := fun i =>
              if i = id then rl.requests id ++ [now] else rl.requests i })
        (by rw [hreq2]; simp only [List.length_append, List.length_cons, List.length_nil] at hlen ⊢; omega)
        (by
          rw [hreq2]
          intro t ht
          apply hbound
          simp only [List.mem_append, List.mem_cons, List.mem_singleton] at ht ⊢
          tauto)
    refine ⟨?_, ?_, ?_, ?_⟩
    · simp only [RateLimiter.runCalls, hstep, ih1, List.length_cons, List.replicate_succ]
    · simp only [RateLimiter.runCalls, hstep, ih2, hreq2, List.append_assoc,
        List.singleton_append]
      simp
    · simp only [RateLimiter.runCalls, hstep, ih3]
    · simp only [RateLimiter.runCalls, hstep, ih4]

/-- Claim C5.  Starting from an empty record, the first `maxRequests` calls
within the window are all admitted and store exactly their timestamps; the
next call in the same window is denied without recording anything; a call
made `windowMs` after the earliest retained timestamp is admitted again; and
every admission leaves at most `maxRequests` stored timestamps. -/
theorem rateLimiter_sliding_window (M w t0 tNext tLater : Nat) (ts : List Nat) (id : String)
    (hlen : (t0 :: ts).length = M)
    (_hpair : (t0 :: ts).Pairwise (· ≤ ·))
    (hbound : ∀ t ∈ t0 :: ts, t ≤ tNext ∧ tNext - t < w)
    (hlater : t0 + w ≤ tLater) :
    ((RateLimiter.mk M w (fun _ => [])).runCalls id (t0 :: ts)).1 = List.replicate M true
    ∧ (((RateLimiter.mk M w (fun _ => [])).runCalls id (t0 :: ts)).2).isAllowed tNext id
        = (false, ((RateLimiter.mk M w (fun _ => [])).runCalls id (t0 :: ts)).2)
    ∧ ((((RateLimiter.mk M w (fun _ => [])).runCalls id (t0 :: ts)).2).isAllowed tLater id).1
        = true
    ∧ (∀ (rl : RateLimiter) (now : Nat) (id2 : String),
        (rl.isAllowed now id2).1 = true →
        (((rl.isAllowed now id2).2).requests id2).length ≤ rl.maxRequests) := by
  obtain ⟨h1, h2, h3, h4⟩ :=
    runCalls_all_granted id tNext (t0 :: ts) (RateLimiter.mk M w (fun _ => []))
      (by simpa using Nat.le_of_eq hlen)
      (by simpa using hbound)
  refine ⟨by rw [h1, hlen], ?_, ?_, ?_⟩
  · apply isAllowed_deny
    rw [h2, h3, h4]
    have hkeep : ((([] : List Nat) ++ t0 :: ts).filter (fun t => tNext - t < w)) =
        ([] : List Nat) ++ t0 :: ts :=
      List.filter_eq_self.mpr (fun t ht => decide_eq_true (hbound t (by simpa using ht)).2)
    rw [hkeep]
    simpa using Nat.le_of_eq hlen.symm
  · have hts : ts.length + 1 = M := by simpa using hlen
    have hdrop : ¬ (tLater - t0 < w) := by
      have hw : w ≤ tLater - t0 := Nat.le_sub_of_add_le (by omega)
      omega
    have hfilter : ((t0 :: ts).filter (fun t => tLater - t < w)).length ≤ ts.length := by
      rw [List.filter_cons, if_neg (by simpa using hdrop)]
      exact List.length_filter_le _ _
    have hcond :
        ¬ ((((RateLimiter.mk M w (fun _ => [])).runCalls id (t0 :: ts)).2).maxRequests ≤
          (((((RateLimiter.mk M w (fun _ => [])).runCalls id (t0 :: ts)).2).requests id).filter
            (fun t =>
              tLater - t <
                (((RateLimiter.mk M w (fun _ => [])).runCalls id (t0 :: ts)).2).windowMs)).length) := by
      rw [h2, h3, h4]
      simp only [List.nil_append]
      omega
    simp only [RateLimiter.isAllowed]
    rw [if_neg hcond]
  · intro rl now id2 h
    by_cases hc : rl.maxRequests ≤
        ((rl.requests id2).filter (fun t => now - t < rl.windowMs)).length
    · rw [isAllowed_deny rl now id2 hc] at h
      exact absurd h (by simp)
    · have hlt := Nat.not_le.mp hc
      rw [isAllowed_below_cap rl now id2 hlt]
      simp only [List.length_append, List.length_cons, List.length_nil, if_pos]
      simp
      omega

/-- Witness for C5 with the default configuration (10 requests per 60000 ms),
ten calls at times 0..9, an eleventh call at time 100 inside the window, and
a later call at time 60000, one window after the earliest timestamp. -/
theorem rateLimiter_sliding_window_witness :
    (([0, 1, 2, 3, 4, 5, 6, 7, 8, 9] : List Nat).length = 10
      ∧ ([0, 1, 2, 3, 4, 5, 6, 7, 8, 9] : List Nat).Pairwise (· ≤ ·)
      ∧ (∀ t ∈ ([0, 1, 2, 3, 4, 5, 6, 7, 8, 9] : List Nat), t ≤ 100 ∧ 100 - t < 60000)
      ∧ 0 + 60000 ≤ 60000)
    ∧ ((RateLimiter.mk 10 60000 (fun _ => [])).runCalls "u"
        (0 :: [1, 2, 3, 4, 5, 6, 7, 8, 9])).1 = List.replicate 10 true
    ∧ (((RateLimiter.mk 10 60000 (fun _ => [])).runCalls "u"
        (0 :: [1, 2, 3, 4, 5, 6, 7, 8, 9])).2).isAllowed 100 "u"
        = (false, ((RateLimiter.mk 10 60000 (fun _ => [])).runCalls "u"
            (0 :: [1, 2, 3, 4, 5, 6, 7, 8, 9])).2)
    ∧ ((((RateLimiter.mk 10 60000 (fun _ => [])).runCalls "u"
        (0 :: [1, 2, 3, 4, 5, 6, 7, 8, 9])).2).isAllowed 60000 "u").1 = true :=
  ⟨⟨by decide, by decide, by decide, by decide⟩,
   (rateLimiter_sliding_window 10 60000 0 100 60000 [1, 2, 3, 4, 5, 6, 7, 8, 9] "u"
      (by decide) (by decide) (by decide) (by decide)).1,
   (rateLimiter_sliding_window 10 60000 0 100 60000 [1, 2, 3, 4, 5, 6, 7, 8, 9] "u"
      (by decide) (by decide) (by decide) (by decide)).2.1,
   (rateLimiter_sliding_window 10 60000 0 100 60000 [1, 2, 3, 4, 5, 6, 7, 8, 9] "u"
      (by decide) (by decide) (by decide) (by decide)).2.2.1⟩

/-- Claim C2.  In `runCode`, the rate gate strictly precedes validation and
validation strictly precedes any execution attempt: a denied submission
yields the rate-limited outcome carrying the remaining quota and performs
neither validation nor any dispatch (worker or fallback); and a submission
whose validation fails performs no dispatch. -/
theorem runCode_gate_ordering (busy : Bool) (rl : RateLimiter) (now : Nat)
    (id code : String) (wa : Bool) (hbusy : busy = false) :
    ((rl.isAllowed now id).1 = false →
      (runCode busy rl now id code wa).1
          = RunOutcome.rateLimited (((rl.isAllowed now id).2).getRemaining now id)
      ∧ ((runCode busy rl now id code wa).2.1.all
          (fun e => !e.isValidationEvent)) = true
      ∧ ((runCode busy rl now id code wa).2.1.all
          (fun e => !e.isExecutionEvent)) = true)
    ∧ ((validateCode code).valid = false →
      ((runCode busy rl now id code wa).2.1.all
          (fun e => !e.isExecutionEvent)) = true) := by
  subst hbusy
  rcases hA : rl.isAllowed now id with ⟨allowed, rl2⟩
  constructor
  · intro hden
    simp only at hden
    subst hden
    simp [runCode, hA, RunEvent.isValidationEvent, RunEvent.isExecutionEvent]
  · intro hval
    cases allowed with
    | false => simp [runCode, hA, RunEvent.isExecutionEvent]
    | true => simp [runCode, hA, hval, RunEvent.isExecutionEvent]

/-- Witness for C2: a zero-capacity limiter exercises the denial half, a
fresh default limiter with the text `"eval(1)"` exercises the
invalid-validation half. -/
theorem runCode_gate_ordering_witness :
    ((RateLimiter.mk 0 60000 (fun _ => [])).isAllowed 0 "u").1 = false
    ∧ (validateCode "eval(1)").valid = false
    ∧ (runCode false (RateLimiter.mk 0 60000 (fun _ => [])) 0 "u" "x" true).1
        = RunOutcome.rateLimited
            ((((RateLimiter.mk 0 60000 (fun _ => [])).isAllowed 0 "u").2).getRemaining 0 "u")
    ∧ ((runCode false (RateLimiter.mk 0 60000 (fun _ => [])) 0 "u" "x" true).2.1.all
        (fun e => !e.isValidationEvent)) = true
    ∧ ((runCode false (RateLimiter.mk 0 60000 (fun _ => [])) 0 "u" "x" true).2.1.all
        (fun e => !e.isExecutionEvent)) = true
    ∧ ((runCode false (RateLimiter.mk 10 60000 (fun _ => [])) 0 "u" "eval(1)" true).2.1.all
        (fun e => !e.isExecutionEvent)) = true :=
  ⟨by decide, by decide,
   ((runCode_gate_ordering false (RateLimiter.mk 0 60000 (fun _ => [])) 0 "u" "x" true rfl).1
      (by decide)).1,
   ((runCode_gate_ordering false (RateLimiter.mk 0 60000 (fun _ => [])) 0 "u" "x" true rfl).1
      (by decide)).2.1,
   ((runCode_gate_ordering false (RateLimiter.mk 0 60000 (fun _ => [])) 0 "u" "x" true rfl).1
      (by decide)).2.2,
   (runCode_gate_ordering false (RateLimiter.mk 10 60000 (fun _ => [])) 0 "u" "eval(1)" true
      rfl).2 (by decide)⟩

/-- A settled state absorbs every further event. -/
theorem execRun_of_settled (w : List String) (st : ExecState)
    (h : st.settled = true) : ∀ evs, execRun w st evs = st := by
  intro evs
  induction evs with
  | nil => rfl
  | cons e es ih =>
    show execRun w (execStep w st e) es = st
    rw [execStep, if_pos h]
    exact ih

/-- Claim C4.  The settle-once guard of `executeSecureCode`: over any sequence
of asynchronous events, at most one settlement is ever produced; and for a
non-empty event sequence, the first event alone determines the settlement,
the guard flag is set, every later event (including a stray late worker
message after a timeout) is a no-op, and the "is executing" state
transitions to false exactly once. -/
theorem executeSecureCode_settles_once (w : List String) (evs : List ExecEvent)
    (e : ExecEvent) (es : List ExecEvent) :
    (execRun w execInit evs).settlements.length ≤ 1
    ∧ execRun w execInit (e :: es) = ⟨true, [settlementOf w e], 1⟩ := by
  have hcons : ∀ (e' : ExecEvent) (es' : List ExecEvent),
      execRun w execInit (e' :: es') = ⟨true, [settlementOf w e'], 1⟩ := by
    intro e' es'
    have h1 : execStep w execInit e' = ⟨true, [settlementOf w e'], 1⟩ := by
      simp [execStep, execInit]
    show execRun w (execStep w execInit e') es' = _
    rw [h1]
    exact execRun_of_settled w _ rfl es'
  constructor
  · cases evs with
    | nil => simp [execRun, execInit]
    | cons e' es' => rw [hcons e' es']; simp
  · exact hcons e es

/-- The amended response-shape discipline: a response either has `error`
null/absent and a present `result` (success), or a non-null `error` with
`result` absent or the empty string (failure). -/
def responseShapeOk (r : WorkerResponse) : Bool :=
  match r.error, r.result with
  | none, some _ => true
  | some _, none => true
  | some _, some s => decide (s = "")
  | none, none => false

/-- Claim C7, counterexample.  The blocked-pattern failure response omits the
`result` field entirely (it is not the empty string, contradicting the
claimed failure shape `{result:'', output, error:text}`). -/
theorem workerResponse_blocked_counterexample :
    (workerOnMessage initialBlockedStates "eval(1)" [] (.completed none)).1.error ≠ none
    ∧ (workerOnMessage initialBlockedStates "eval(1)" [] (.completed none)).1.result ≠ some ""
    ∧ (workerOnMessage initialBlockedStates "eval(1)" [] (.completed none)).1.result = none := by
  decide

/-- Claim C7, amended.  Every response the worker posts is exactly one of:
success `{result: text, output: text, error: null}`, a caught-guest-error
failure `{result: '', output, error: text}`, or a blocked-pattern/timeout
failure `{output, error: text}` with the `result` field absent; never are
`result` and `error` both (non-trivially) populated. -/
theorem workerResponse_shapes (states : List (JSRegex × Nat)) (code : String)
    (calls : List ConsoleCall) (guest : GuestOutcome) :
    responseShapeOk (workerOnMessage states code calls guest).1 = true
    ∧ responseShapeOk timeoutResponse = true := by
  refine ⟨?_, rfl⟩
  rcases hs : scanBlockedPatterns states code.data with ⟨b, st2⟩
  cases b with
  | true => simp [workerOnMessage, hs, blockedResponse, responseShapeOk]
  | false =>
    cases guest with
    | completed value => simp [workerOnMessage, hs, responseShapeOk]
    | threw msg => simp [workerOnMessage, hs, responseShapeOk]

/-- Claim C8, counterexample.  A missing timeout is *not* clamped to zero:
`executeSecureCode`'s parameter defaults to `5000`, and the worker turns a
missing (or zero) timeout into `5000` via `timeout || 5000`. -/
theorem timeout_missing_counterexample :
    resolvedTimeout none = 5000 ∧ workerTimeoutDelay none = 5000
    ∧ (5000 : Int) ≠ 0 := by decide

/-- Claim C8, amended.  `executeSecureCode` clamps a negative timeout to zero
via `Math.max(0, timeout)` and substitutes `5000` for a missing one; the
worker substitutes `5000` for a missing (or zero, falsy) timeout and passes
a negative value through unchanged to `setTimeout`, where the host clamps
the delay to zero at scheduling time. -/
theorem timeout_clamping_corrected (t : Int) :
    0 ≤ resolvedTimeout (some t)
    ∧ (t < 0 → resolvedTimeout (some t) = 0)
    ∧ resolvedTimeout none = 5000
    ∧ workerTimeoutDelay none = 5000
    ∧ workerTimeoutDelay (some 0) = 5000
    ∧ (t < 0 → workerTimeoutDelay (some t) = t
        ∧ hostSetTimeoutDelay (workerTimeoutDelay (some t)) = 0) := by
  refine ⟨le_max_left 0 _, fun h => ?_, rfl, rfl, rfl, fun h => ?_⟩
  · simp only [resolvedTimeout, Option.getD_some]
    omega
  · have hne : t ≠ 0 := by omega
    refine ⟨by simp [workerTimeoutDelay, hne], ?_⟩
    simp only [workerTimeoutDelay, hostSetTimeoutDelay, if_neg hne]
    omega

/-- Witness for C8 at the concrete negative timeout `-7`. -/
theorem timeout_clamping_witness :
    ((-7 : Int) < 0)
    ∧ resolvedTimeout (some (-7)) = 0
    ∧ workerTimeoutDelay (some (-7)) = -7
    ∧ hostSetTimeoutDelay (workerTimeoutDelay (some (-7))) = 0 :=
  ⟨by decide,
   (timeout_clamping_corrected (-7)).2.1 (by decide),
   ((timeout_clamping_corrected (-7)).2.2.2.2.2 (by decide)).1,
   ((timeout_clamping_corrected (-7)).2.2.2.2.2 (by decide)).2⟩

/-- The informational line a console call contributes to the `logs`
accumulator, if any. -/
def infoLineOf : ConsoleCall → Option String
  | .logCall args => some (String.intercalate " " (args.map formatWorkerLogArg))
  | _ => none

/-- The line a console call contributes to the `errors` accumulator
(error and warning channels share it), if any. -/
def errLineOf : ConsoleCall → Option String
  | .errorCall args => some (String.intercalate " " (args.map jsToString))
  | .warnCall args => some ("WARN: " ++ String.intercalate " " (args.map jsToString))
  | _ => none

/-- The raw arguments a console call forwards to the original `console.log`. -/
def realLogArgsOf : ConsoleCall → Option (List JSValue)
  | .logCall args => some args
  | _ => none

/-- The raw arguments forwarded to the original `console.error`. -/
def realErrorArgsOf : ConsoleCall → Option (List JSValue)
  | .errorCall args => some args
  | _ => none

/-- The raw arguments forwarded to the original `console.warn`. -/
def realWarnArgsOf : ConsoleCall → Option (List JSValue)
  | .warnCall args => some args
  | _ => none

/-- Folding the wrapper over a call sequence appends, per field, exactly the
formatted accumulator lines and the forwarded raw calls. -/
theorem foldl_workerConsoleStep (calls : List ConsoleCall) :
    ∀ (st : WorkerConsoleState),
      calls.foldl workerConsoleStep st =
        ⟨st.logs ++ calls.filterMap infoLineOf,
         st.errors ++ calls.filterMap errLineOf,
         st.realLog ++ calls.filterMap realLogArgsOf,
         st.realError ++ calls.filterMap realErrorArgsOf,
         st.realWarn ++ calls.filterMap realWarnArgsOf,
         st.redirected⟩ := by
  induction calls with
  | nil => intro st; simp
  | cons c cs ih =>
    intro st
    rw [List.foldl_cons, ih]
    cases c with
    | logCall args =>
      simp [workerConsoleStep, infoLineOf, errLineOf, realLogArgsOf, realErrorArgsOf,
        realWarnArgsOf, List.filterMap_cons]
    | errorCall args =>
      simp [workerConsoleStep, infoLineOf, errLineOf, realLogArgsOf, realErrorArgsOf,
        realWarnArgsOf, List.filterMap_cons]
    | warnCall args =>
      simp [workerConsoleStep, infoLineOf, errLineOf, realLogArgsOf, realErrorArgsOf,
        realWarnArgsOf, List.filterMap_cons]

/-- Claim C10, counterexample.  The worker's console wrappers *do* side-effect
the real console: each wrapper forwards its raw arguments to the saved
original function (`originalLog(...args)` and friends), so after a guest
`console.log("hi")` the real console has received a call. -/
theorem worker_console_real_forwarding_counterexample :
    ((workerOnMessage initialBlockedStates "1+1" [.logCall [.str "hi"]]
        (.completed none)).2.2).realLog.length ≠ 0
    ∧ ((workerOnMessage initialBlockedStates "1+1" [.logCall [.str "hi"]]
        (.completed none)).2.2).logs = ["hi"] := by decide

/-- Claim C10, amended.  During one evaluation the three console wrappers
format their arguments into text, append it to the in-memory accumulators,
*and additionally forward the raw arguments to the original console
functions*; the originals are restored unconditionally after the evaluation
— on success and on failure alike — so the redirection never outlives one
invocation. -/
theorem worker_console_capture (states : List (JSRegex × Nat)) (code : String)
    (calls : List ConsoleCall) (guest : GuestOutcome) :
    ((workerOnMessage states code calls guest).2.2).redirected = false
    ∧ ((scanBlockedPatterns states code.data).1 = false →
        ((workerOnMessage states code calls guest).2.2).logs = calls.filterMap infoLineOf
        ∧ ((workerOnMessage states code calls guest).2.2).errors = calls.filterMap errLineOf
        ∧ ((workerOnMessage states code calls guest).2.2).realLog
            = calls.filterMap realLogArgsOf
        ∧ ((workerOnMessage states code calls guest).2.2).realError
            = calls.filterMap realErrorArgsOf
        ∧ ((workerOnMessage states code calls guest).2.2).realWarn
            = calls.filterMap realWarnArgsOf) := by
  rcases hs : scanBlockedPatterns states code.data with ⟨b, st2⟩
  have hfold := foldl_workerConsoleStep calls ⟨[], [], [], [], [], true⟩
  cases b with
  | true =>
    refine ⟨by simp [workerOnMessage, hs, initialConsoleState], fun hnb => ?_⟩
    exact absurd hnb (by simp)
  | false =>
    cases guest with
    | completed value =>
      exact ⟨by simp [workerOnMessage, hs, hfold],
        fun _ => by simp [workerOnMessage, hs, hfold, initialConsoleState]⟩
    | threw msg =>
      exact ⟨by simp [workerOnMessage, hs, hfold],
        fun _ => by simp [workerOnMessage, hs, hfold, initialConsoleState]⟩

/-- Witness for C10 at a concrete unblocked evaluation with one call on each
console channel. -/
theorem worker_console_capture_witness :
    (scanBlockedPatterns initialBlockedStates "2+2".data).1 = false
    ∧ ((workerOnMessage initialBlockedStates "2+2"
        [.logCall [.str "a"], .errorCall [.str "b"], .warnCall [.str "c"]]
        (.threw "boom")).2.2).redirected = false
    ∧ ((workerOnMessage initialBlockedStates "2+2"
        [.logCall [.str "a"], .errorCall [.str "b"], .warnCall [.str "c"]]
        (.threw "boom")).2.2).logs =
        ([.logCall [.str "a"], .errorCall [.str "b"], .warnCall [.str "c"]] :
          List ConsoleCall).filterMap infoLineOf
    ∧ ((workerOnMessage initialBlockedStates "2+2"
        [.logCall [.str "a"], .errorCall [.str "b"], .warnCall [.str "c"]]
        (.threw "boom")).2.2).realWarn =
        ([.logCall [.str "a"], .errorCall [.str "b"], .warnCall [.str "c"]] :
          List ConsoleCall).filterMap realWarnArgsOf :=
  ⟨by decide,
   (worker_console_capture initialBlockedStates "2+2"
      [.logCall [.str "a"], .errorCall [.str "b"], .warnCall [.str "c"]] (.threw "boom")).1,
   ((worker_console_capture initialBlockedStates "2+2"
      [.logCall [.str "a"], .errorCall [.str "b"], .warnCall [.str "c"]] (.threw "boom")).2
      (by decide)).1,
   ((worker_console_capture initialBlockedStates "2+2"
      [.logCall [.str "a"], .errorCall [.str "b"], .warnCall [.str "c"]] (.threw "boom")).2
      (by decide)).2.2.2.2⟩
